import Mathlib

/-!
Verification development for the ai-toolkit repository: a shallow embedding of
the response parser (`AIToolkit.prototype.parseJSON` in `src/index.js`) and of
the action registry (`ActionExecutor` in `src/executor.js`), together with
theorems settling the specification claims about them.

JavaScript values that cross the boundaries of these two components are
modelled by the inductive type `JSValue` (string, number, boolean, null,
object, array).  JavaScript numbers are modelled as integers: every concrete
number appearing in the embedded code paths is an integer, and no arithmetic
beyond equality with zero is performed on them.  `JSON.parse` is a host
builtin, not repository code; the parser embedding is therefore parametric in
a function `jp : List Char → Option JSValue` standing for `JSON.parse`
(`none` models a thrown `SyntaxError`), and a concrete executable model
`jsonParseModel` of the builtin is provided for witnesses and counterexamples.
-/

/-- Model of a JavaScript value as it crosses the parser / executor
boundaries: string, (integer) number, boolean, `null`, object literal
(field list in insertion order) or array. -/
inductive JSValue where
  | vstr : String → JSValue
  | vnum : Int → JSValue
  | vbool : Bool → JSValue
  | vnull : JSValue
  | vobj : List (String × JSValue) → JSValue
  | varr : List JSValue → JSValue

/-- JavaScript truthiness of a `JSValue` (`null`, `0`, `""`, `false` are
falsy; every object and array, including empty ones, is truthy). -/
def truthy : JSValue → Bool
  | .vstr s => !(s == "")
  | .vnum n => !(n == 0)
  | .vbool b => b
  | .vnull => false
  | .vobj _ => true
  | .varr _ => true

/-- The JavaScript `typeof` operator on modelled values; note the classic
quirk that `typeof null` is the string "object". -/
def jsTypeof : JSValue → String
  | .vstr _ => "string"
  | .vnum _ => "number"
  | .vbool _ => "boolean"
  | .vnull => "object"
  | .vobj _ => "object"
  | .varr _ => "object"

namespace AIToolkit

/-- The backquote character, U+0060. -/
def backtick : Char := Char.ofNat 96

/-- The double-quote character, U+0022. -/
def quoteChar : Char := Char.ofNat 34

/-- The character class of the JavaScript regexp escape `\s`, which is also
exactly the set trimmed by `String.prototype.trim`. -/
def jsWs (c : Char) : Bool :=
  let n := c.toNat
  n == 9 || n == 10 || n == 11 || n == 12 || n == 13 || n == 32 ||
  n == 160 || n == 0x1680 || (0x2000 ≤ n && n ≤ 0x200a) ||
  n == 0x2028 || n == 0x2029 || n == 0x202f || n == 0x205f ||
  n == 0x3000 || n == 0xfeff

/-- Case-insensitive comparison of `c` against a lower-case letter `d`,
modelling the `i` flag of the fence-stripping regexps. -/
def lowEq (c d : Char) : Bool := c.toLower == d

/-- Fuel-driven model of `response.replace(/\x60\x60\x60json\s*/gi, "")`:
scan left to right; at each position either remove a case-insensitive
"backtick backtick backtick json" marker together with the whitespace run
following it, or keep the character and continue.  The fuel is consumed one
unit per step and each step removes at least one character, so fuel equal to
the length of the input makes the function total on it. -/
def stripJsonFencesF : Nat → List Char → List Char
  | 0, cs => cs
  | fuel+1, b1 :: b2 :: b3 :: c1 :: c2 :: c3 :: c4 :: rest =>
    if b1 == backtick && b2 == backtick && b3 == backtick &&
       lowEq c1 'j' && lowEq c2 's' && lowEq c3 'o' && lowEq c4 'n' then
      stripJsonFencesF fuel (rest.dropWhile jsWs)
    else
      b1 :: stripJsonFencesF fuel (b2 :: b3 :: c1 :: c2 :: c3 :: c4 :: rest)
  | _+1, [] => []
  | fuel+1, c :: cs => c :: stripJsonFencesF fuel cs

/-- First cleaning pass of `parseJSON` (src/index.js line 327). -/
def stripJsonFences (cs : List Char) : List Char :=
  stripJsonFencesF cs.length cs

/-- Fuel-driven model of `.replace(/\x60\x60\x60\s*/g, "")`: remove every
bare triple-backtick marker together with the whitespace run following it. -/
def stripFencesF : Nat → List Char → List Char
  | 0, cs => cs
  | fuel+1, b1 :: b2 :: b3 :: rest =>
    if b1 == backtick && b2 == backtick && b3 == backtick then
      stripFencesF fuel (rest.dropWhile jsWs)
    else
      b1 :: stripFencesF fuel (b2 :: b3 :: rest)
  | _+1, [] => []
  | fuel+1, c :: cs => c :: stripFencesF fuel cs

/-- Second cleaning pass of `parseJSON` (src/index.js line 328). -/
def stripFences (cs : List Char) : List Char :=
  stripFencesF cs.length cs

/-- Model of `String.prototype.trim`. -/
def trimJS (cs : List Char) : List Char :=
  ((cs.dropWhile jsWs).reverse.dropWhile jsWs).reverse

/-- The `cleaned` string of `parseJSON` (src/index.js lines 326-329): both
fence-stripping passes followed by a trim. -/
def fenceClean (s : String) : List Char :=
  trimJS (stripFences (stripJsonFences s.data))

/-- Model of `cleaned.match(/^\x7bOPEN\x7d[\s\S]*\x7bCLOSE\x7d$/)` for a
bracket pair: the cleaned (hence trimmed) text starts with the opening
bracket and ends with the matching closing bracket. -/
def wholeMatch (cs : List Char) (op cl : Char) : Bool :=
  cs.head? == some op && cs.getLast? == some cl

/-- One step of the depth counter of the balancing scan (src/index.js lines
354-355 and 364-365): increment on the opening bracket of the chosen kind,
decrement on its closing bracket. -/
def step (op cl : Char) (d : Int) (c : Char) : Int :=
  d + (if c == op then 1 else 0) - (if c == cl then 1 else 0)

/-- The depth counter after scanning a character list starting from depth
`d`. -/
def runDepth (op cl : Char) (d : Int) (cs : List Char) : Int :=
  cs.foldl (step op cl) d

/-- The balancing loop of `parseJSON` (src/index.js lines 353-359 and
363-369): walk the remaining characters keeping the running depth, and
return the absolute index at which the depth first equals zero, if any. -/
def depthScanAux (op cl : Char) (i : Nat) (d : Int) : List Char → Option Nat
  | [] => none
  | c :: cs =>
    let d' := step op cl d c
    if d' == 0 then some i else depthScanAux op cl (i+1) d' cs

/-- The balancing scan started at position `start` of `cs` with depth `0`. -/
def depthScan (op cl : Char) (cs : List Char) (start : Nat) : Option Nat :=
  depthScanAux op cl start 0 (cs.drop start)

/-- Model of `cleaned.substring(start, i + 1)`: the characters of `cs` at
positions `start` through `i` inclusive. -/
def sliceTo (cs : List Char) (start i : Nat) : List Char :=
  (cs.drop start).take (i + 1 - start)

/-- The choice of balancing branch (src/index.js lines 341-348): the first
occurrence of each opening-bracket kind is located; the kind whose first
occurrence has the smaller index wins (`isArray = firstArray !== -1 &&
(firstObject === -1 || firstArray < firstObject)`).  Returns the chosen
opener, closer and start index, or `none` when neither bracket occurs. -/
def chooseBracket (cs : List Char) : Option (Char × Char × Nat) :=
  let fo := cs.findIdx? (fun c => c == '{')
  let fa := cs.findIdx? (fun c => c == '[')
  match fo, fa with
  | none, none => none
  | some o, none => some ( '{', '}', o)
  | none, some a => some ( '[', ']', a)
  | some o, some a => if a < o then some ( '[', ']', a) else some ( '{', '}', o)

/-- The failure sentinel returned by `parseJSON` when anything goes wrong
(src/index.js line 378): a mapping with the single diagnostic field
`error`. -/
def parseFailedSentinel : JSValue :=
  JSValue.vobj [("error", JSValue.vstr "Failed to parse response")]

/-- A call of the (abstractly modelled) `JSON.parse` builtin inside
`parseJSON`: success returns the parsed value, failure is the thrown
`SyntaxError`. -/
def jpRun (jp : List Char → Option JSValue) (cs : List Char) :
    Except String JSValue :=
  match jp cs with
  | some v => Except.ok v
  | none => Except.error "SyntaxError: unexpected token in JSON"

/-- One balancing branch of `parseJSON` (src/index.js lines 350-370): run the
depth-counting scan from the chosen opening bracket; if it finds the position
where the depth returns to zero, `JSON.parse` exactly that substring,
otherwise fall through to `JSON.parse` of the whole cleaned string. -/
def scanBranch (jp : List Char → Option JSValue) (op cl : Char)
    (first : Nat) (cs : List Char) : Except String JSValue :=
  match depthScan op cl cs first with
  | some i => jpRun jp (sliceTo cs first i)
  | none => jpRun jp cs

/-- The body of `parseJSON` (src/index.js lines 323-372), i.e. everything
inside the `try` block; `Except.error` models a thrown exception reaching the
`catch`.  The branch on object-typed values models `typeof response ===
"object"`; for numbers and booleans, `response.replace` is not a function,
so a `TypeError` is thrown. -/
def parseJSONBody (jp : List Char → Option JSValue) :
    JSValue → Except String JSValue
  | .vobj m => Except.ok (.vobj m)
  | .varr l => Except.ok (.varr l)
  | .vnull => Except.ok .vnull
  | .vnum _ => Except.error "TypeError: response.replace is not a function"
  | .vbool _ => Except.error "TypeError: response.replace is not a function"
  | .vstr s =>
    let cleaned := fenceClean s
    if wholeMatch cleaned '{' '}' then jpRun jp cleaned
    else if wholeMatch cleaned '[' ']' then jpRun jp cleaned
    else
      match chooseBracket cleaned with
      | none => jpRun jp cleaned
      | some (op, cl, first) => scanBranch jp op cl first cleaned

/-- `AIToolkit.prototype.parseJSON` (src/index.js lines 322-380): the body
wrapped in the `try`/`catch` that converts every thrown error into the
failure sentinel. -/
def parseJSON (jp : List Char → Option JSValue) (response : JSValue) :
    JSValue :=
  match parseJSONBody jp response with
  | Except.ok v => v
  | Except.error _ => parseFailedSentinel

/-! ### An executable model of the `JSON.parse` builtin

`JSON.parse` is a host builtin of the JavaScript runtime, not repository
code, and the theorems about `parseJSON` are parametric in it.  The model
below is used only to instantiate that parameter in witnesses and
counterexamples; it implements the JSON grammar restricted to the fragment
those concrete inputs exercise: objects, arrays, strings with the
single-character escapes, integer numbers, `true`, `false` and `null`
(fraction, exponent and `\u` escapes are rejected rather than parsed). -/

/-- Whitespace of the JSON grammar: space, tab, line feed, carriage
return. -/
def jsonWs (c : Char) : Bool :=
  let n := c.toNat
  n == 32 || n == 9 || n == 10 || n == 13

/-- The character denoted by a single-character JSON string escape. -/
def escChar? (e : Char) : Option Char :=
  if e == quoteChar then some quoteChar
  else if e == '\\' then some '\\'
  else if e == '/' then some '/'
  else if e == 'b' then some (Char.ofNat 8)
  else if e == 'f' then some (Char.ofNat 12)
  else if e == 'n' then some (Char.ofNat 10)
  else if e == 'r' then some (Char.ofNat 13)
  else if e == 't' then some (Char.ofNat 9)
  else none

/-- Parse the body of a JSON string after its opening quote; returns the
decoded characters and the remaining input after the closing quote. -/
def strBody : List Char → Option (List Char × List Char)
  | [] => none
  | c :: rest =>
    if c == quoteChar then some ([], rest)
    else if c == '\\' then
      match rest with
      | [] => none
      | e :: rest2 =>
        match escChar? e with
        | none => none
        | some ec => (strBody rest2).map (fun p => (ec :: p.1, p.2))
    else if c.toNat < 32 then none
    else (strBody rest).map (fun p => (c :: p.1, p.2))

/-- Parse a JSON integer number (optional minus sign, no leading zeros);
inputs continuing with a fraction or exponent are outside the modelled
fragment and rejected. -/
def parseNum : List Char → Option (JSValue × List Char)
  | cs =>
    let neg := cs.head? == some '-'
    let cs1 := if neg then cs.drop 1 else cs
    let ds := cs1.takeWhile (fun c => c.isDigit)
    let rest := cs1.dropWhile (fun c => c.isDigit)
    if ds.isEmpty then none
    else if ds.length > 1 && ds.head? == some '0' then none
    else
      match rest with
      | '.' :: _ => none
      | 'e' :: _ => none
      | 'E' :: _ => none
      | _ =>
        let n : Nat := ds.foldl (fun a c => a * 10 + (c.toNat - 48)) 0
        some (.vnum (if neg then -(n : Int) else (n : Int)), rest)

/-- Parsing mode of the JSON reader: a single value, the remaining elements
of an array (accumulated so far), or the remaining members of an object. -/
inductive JPMode where
  | val : JPMode
  | arrTail : List JSValue → JPMode
  | objTail : List (String × JSValue) → JPMode

/-- Fuel-driven recursive JSON reader; fuel `2 * length + 4` suffices for
every input. -/
def jpGo : Nat → JPMode → List Char → Option (JSValue × List Char)
  | 0, _, _ => none
  | fuel+1, .val, cs0 =>
    let cs := cs0.dropWhile jsonWs
    match cs with
    | 'n' :: 'u' :: 'l' :: 'l' :: rest => some (.vnull, rest)
    | 't' :: 'r' :: 'u' :: 'e' :: rest => some (.vbool true, rest)
    | 'f' :: 'a' :: 'l' :: 's' :: 'e' :: rest => some (.vbool false, rest)
    | [] => none
    | c :: rest =>
      if c == quoteChar then
        (strBody rest).map (fun p => (.vstr (String.mk p.1), p.2))
      else if c == '[' then
        let r2 := rest.dropWhile jsonWs
        match r2 with
        | ']' :: r3 => some (.varr [], r3)
        | _ => jpGo fuel (.arrTail []) r2
      else if c == '{' then
        let r2 := rest.dropWhile jsonWs
        match r2 with
        | '}' :: r3 => some (.vobj [], r3)
        | _ => jpGo fuel (.objTail []) r2
      else parseNum (c :: rest)
  | fuel+1, .arrTail acc, cs =>
    match jpGo fuel .val cs with
    | none => none
    | some (v, rest) =>
      let r := rest.dropWhile jsonWs
      match r with
      | ',' :: r2 => jpGo fuel (.arrTail (acc ++ [v])) r2
      | ']' :: r2 => some (.varr (acc ++ [v]), r2)
      | _ => none
  | fuel+1, .objTail acc, cs =>
    let cs1 := cs.dropWhile jsonWs
    match cs1 with
    | [] => none
    | c :: rest =>
      if c == quoteChar then
        match strBody rest with
        | none => none
        | some (kcs, r1) =>
          let r2 := r1.dropWhile jsonWs
          match r2 with
          | ':' :: r3 =>
            match jpGo fuel .val r3 with
            | none => none
            | some (v, r4) =>
              let r5 := r4.dropWhile jsonWs
              match r5 with
              | ',' :: r6 => jpGo fuel (.objTail (acc ++ [(String.mk kcs, v)])) r6
              | '}' :: r6 => some (.vobj (acc ++ [(String.mk kcs, v)]), r6)
              | _ => none
          | _ => none
      else none

/-- The executable model of `JSON.parse`: parse one value and require only
trailing JSON whitespace after it. -/
def jsonParseModel (cs : List Char) : Option JSValue :=
  match jpGo (2 * cs.length + 4) .val cs with
  | some (v, rest) => if (rest.dropWhile jsonWs).isEmpty then some v else none
  | none => none

end AIToolkit

namespace ActionExecutor

/-!
Embedding of `ActionExecutor` (src/executor.js).  The registry, a JavaScript
`Map`, is modelled as an association list in insertion order (new keys are
appended; `register` never overwrites an existing key).  A method that may
`throw` returns an `Except`/`Option` error component; thrown `Error` objects
are modelled by the constructors of `ExecError`, which record which
statement created the error (for a user validator's exception, the value it
threw, identified by its message).  `execute` additionally returns the list
of observable collaborator interactions it performed (validator call,
confirmation warning, handler call), in order; the JavaScript method returns
only the first component. -/

/-- A thrown error, tagged by the statement of `executor.js` that threw it.
`validatorThrown` is not created by `ActionExecutor` itself: it is an
exception raised inside a caller-supplied `validate` function, carried
through unchanged. -/
inductive ExecError where
  | invalidHandler : String → ExecError
  | duplicateAction : String → ExecError
  | invalidDecision : ExecError
  | unknownAction : String → ExecError
  | invalidParameters : String → ExecError
  | validatorThrown : String → ExecError
deriving DecidableEq

/-- The three contract-check failures of `execute` named by the spec
(conditions 1-3 of section 4.2): invalid decision, unknown action,
parameter-validator rejection. -/
def isContractError : ExecError → Bool
  | .invalidDecision => true
  | .unknownAction _ => true
  | .invalidParameters _ => true
  | _ => false

/-- The `handler` argument of `register`: either a function (an async
callable from a parameter mapping to a result, whose failure carries the
thrown error's message) or a non-callable value. -/
inductive HandlerArg where
  | func : (JSValue → Except String JSValue) → HandlerArg
  | value : JSValue → HandlerArg

/-- The `metadata` argument of `register`; absent fields are `none`
(mirroring absent properties of the JavaScript options object). -/
structure Metadata where
  description : Option String := none
  parameters : Option JSValue := none
  examples : Option (List JSValue) := none
  requiresConfirmation : Option Bool := none
  validate : Option (JSValue → Except String Bool) := none

/-- The record stored in the registry for one action (src/executor.js lines
23-31). -/
structure ActionConfig where
  name : String
  handler : JSValue → Except String JSValue
  description : String
  parameters : JSValue
  examples : List JSValue
  requiresConfirmation : Bool
  validate : JSValue → Except String Bool

/-- The registry: a `Map` in insertion order. -/
abbrev ExecState := List (String × ActionConfig)

/-- `metadata.description || default`: JavaScript `||` falls back on any
falsy value, so an explicitly supplied empty string is replaced by the
default as well. -/
def strMetaOrDefault (o : Option String) (d : String) : String :=
  match o with
  | some s => if s == "" then d else s
  | none => d

/-- `metadata.parameters || {}`. -/
def paramsMetaOrDefault (o : Option JSValue) : JSValue :=
  match o with
  | some v => if truthy v then v else JSValue.vobj []
  | none => JSValue.vobj []

/-- The `ActionConfig` built by a successful `register` call
(src/executor.js lines 23-31): supplied metadata merged with defaults. -/
def mkConfig (name : String) (f : JSValue → Except String JSValue)
    (m : Metadata) : ActionConfig :=
  { name := name
  , handler := f
  , description := strMetaOrDefault m.description ("Execute " ++ name)
  , parameters := paramsMetaOrDefault m.parameters
  , examples := m.examples.getD []
  , requiresConfirmation := m.requiresConfirmation.getD false
  , validate := m.validate.getD (fun _ => Except.ok true) }

/-- `this.registry.has(name)`. -/
def has (s : ExecState) (name : String) : Bool :=
  s.any (fun p => p.1 == name)

/-- `this.registry.get(name)`. -/
def lookupAction (s : ExecState) (name : String) : Option ActionConfig :=
  (s.find? (fun p => p.1 == name)).map (fun p => p.2)

/-- `ActionExecutor.prototype.register` (src/executor.js lines 14-34).  The
returned state is the registry after the call: both `throw` statements occur
before the `registry.set`, so on failure the registry is returned
untouched.  (The JavaScript method returns `this` for chaining; the error
component `none` marks a normal return.) -/
def register (s : ExecState) (name : String) (h : HandlerArg)
    (m : Metadata) : ExecState × Option ExecError :=
  match h with
  | .value _ => (s, some (ExecError.invalidHandler name))
  | .func f =>
    if has s name then (s, some (ExecError.duplicateAction name))
    else (s ++ [(name, mkConfig name f m)], none)

/-- The error produced by a failing `register` call: the handler check
(line 15) runs before the duplicate check (line 19). -/
def regFailure (h : HandlerArg) (name : String) : ExecError :=
  match h with
  | .value _ => ExecError.invalidHandler name
  | .func _ => ExecError.duplicateAction name

/-- An entry of the sequence returned by `list`. -/
structure NameDesc where
  name : String
  description : String
deriving DecidableEq

/-- An entry of the sequence returned by `getAvailableActions`: keyed by
`action`, not `name`. -/
structure ActionInfo where
  action : String
  description : String
  parameters : JSValue
  examples : List JSValue

/-- `ActionExecutor.prototype.list` (src/executor.js lines 129-138): a fresh
array of `name`/`description` pairs in registry (insertion) order. -/
def list (s : ExecState) : List NameDesc :=
  s.map (fun p => { name := p.1, description := p.2.description })

/-- `ActionExecutor.prototype.getAvailableActions` (src/executor.js lines
39-52): a fresh array of `action`/`description`/`parameters`/`examples`
records in registry (insertion) order. -/
def getAvailableActions (s : ExecState) : List ActionInfo :=
  s.map (fun p =>
    { action := p.1
    , description := p.2.description
    , parameters := p.2.parameters
    , examples := p.2.examples })

/-- The `decision` argument of `execute`; `action` and `parameters` are
`none` when the corresponding property is absent. -/
structure Decision where
  action : Option String := none
  parameters : Option JSValue := none

/-- `decision.parameters || {}` (src/executor.js lines 69 and 81). -/
def paramsOrDefault (o : Option JSValue) : JSValue :=
  match o with
  | some v => if truthy v then v else JSValue.vobj []
  | none => JSValue.vobj []

/-- An observable collaborator interaction performed by `execute`. -/
inductive Event where
  | validateCall : String → JSValue → Event
  | confirmWarn : String → Event
  | handlerCall : String → JSValue → Event

/-- The result envelope returned by a normal completion of `execute`. -/
structure ExecResult where
  success : Bool
  action : String
  result : Option JSValue
  error : Option String

/-- `ActionExecutor.prototype.execute` (src/executor.js lines 57-96).
First component: the settled outcome (`Except.error` models a rejection of
the returned promise).  Second component: the collaborator interactions, in
order.  `!decision.action` is falsy for an absent action field and for the
empty string.  Parameter validation (line 69) runs outside the `try` block,
so an exception raised by a custom validator escapes `execute` unchanged;
the handler call (line 81) runs inside it, so a handler failure becomes a
`success: false` envelope (lines 89-95). -/
def execute (s : ExecState) (d : Option Decision) :
    Except ExecError ExecResult × List Event :=
  match d with
  | none => (Except.error ExecError.invalidDecision, [])
  | some dec =>
    match dec.action with
    | none => (Except.error ExecError.invalidDecision, [])
    | some name =>
      if name == "" then (Except.error ExecError.invalidDecision, [])
      else
        match lookupAction s name with
        | none => (Except.error (ExecError.unknownAction name), [])
        | some cfg =>
          let params := paramsOrDefault dec.parameters
          match cfg.validate params with
          | Except.error e =>
            (Except.error (ExecError.validatorThrown e),
             [Event.validateCall name params])
          | Except.ok false =>
            (Except.error (ExecError.invalidParameters name),
             [Event.validateCall name params])
          | Except.ok true =>
            let evs := [Event.validateCall name params] ++
              (if cfg.requiresConfirmation then [Event.confirmWarn name] else [])
            match cfg.handler params with
            | Except.ok r =>
              (Except.ok { success := true, action := name
                         , result := some r, error := none },
               evs ++ [Event.handlerCall name params])
            | Except.error msg =>
              (Except.ok { success := false, action := name
                         , result := none, error := some msg },
               evs ++ [Event.handlerCall name params])

/-- One registration request with a callable handler. -/
structure RegReq where
  name : String
  handler : JSValue → Except String JSValue
  meta : Metadata

/-- Perform a sequence of registrations, `none` if any of them throws. -/
def applyRegs : ExecState → List RegReq → Option ExecState
  | s, [] => some s
  | s, r :: rs =>
    match register s r.name (HandlerArg.func r.handler) r.meta with
    | (s1, none) => applyRegs s1 rs
    | (_, some _) => none

end ActionExecutor

open AIToolkit ActionExecutor

/-! ### Concrete instances used by witnesses and counterexamples -/

/-- The text `x [1, 2] y`: prose around an array. -/
def c1chars : List Char := ['x', ' ', '[', '1', ',', ' ', '2', ']', ' ', 'y']

/-- The text `a [1] b` followed by an empty object literal: the first array
bracket precedes the first object bracket. -/
def c7chars : List Char := ['a', ' ', '[', '1', ']', ' ', 'b', ' ', '{', '}']

/-- A handler that always succeeds with `null`. -/
def okHandler : JSValue → Except String JSValue := fun _ => Except.ok JSValue.vnull

/-- A registry holding the single action `a`. -/
def c5state : ExecState := (register [] "a" (HandlerArg.func okHandler) {}).1

/-- A handler that succeeds with the string `done`. -/
def doneHandler : JSValue → Except String JSValue :=
  fun _ => Except.ok (JSValue.vstr "done")

/-- A registry holding the single action `echo` whose handler reports
`done`. -/
def c8state : ExecState := (register [] "echo" (HandlerArg.func doneHandler) {}).1

/-- A handler that always fails with the message `handler blew up`. -/
def failHandler : JSValue → Except String JSValue :=
  fun _ => Except.error "handler blew up"

/-- A registry holding the single action `deploy` whose handler fails. -/
def c4state : ExecState :=
  (register [] "deploy" (HandlerArg.func failHandler) {}).1

/-- A custom parameter validator that throws instead of returning a
boolean. -/
def throwingValidate : JSValue → Except String Bool :=
  fun _ => Except.error "validator exploded"

/-- A registry holding the single action `probe` whose custom validator
throws. -/
def c4cexState : ExecState :=
  (register [] "probe" (HandlerArg.func okHandler)
    { validate := some throwingValidate }).1

/-- A registry like `c4cexState`, for the claim about validator-exception
propagation. -/
def c10state : ExecState :=
  (register [] "guard" (HandlerArg.func okHandler)
    { validate := some throwingValidate }).1

/-- Registration requests for `b` then `a` (the listing-order scenario of
spec section 8, property 11). -/
def c9reqs : List RegReq :=
  [ { name := "b", handler := okHandler, meta := {} }
  , { name := "a", handler := doneHandler, meta := { description := some "Custom" } } ]

/-- The registry after performing `c9reqs` from empty. -/
def c9state : ExecState := (applyRegs [] c9reqs).getD []

/-! ### Helper lemmas -/

/-- `runDepth` unfolds one character at a time. -/
theorem runDepth_cons (op cl : Char) (d : Int) (c : Char) (cs : List Char) :
    runDepth op cl d (c :: cs) = runDepth op cl (step op cl d c) cs := rfl

/-- Soundness of the balancing loop: when `depthScanAux` starting at index
`i` with depth `d` returns index `r`, then `r = i + m` for the least `m`
such that the depth counter over the first `m + 1` scanned characters ends
at zero. -/
theorem depthScanAux_spec (op cl : Char) :
    ∀ (l : List Char) (i : Nat) (d : Int) (r : Nat),
      depthScanAux op cl i d l = some r →
      ∃ m, r = i + m ∧ m < l.length ∧
        runDepth op cl d (l.take (m+1)) = 0 ∧
        ∀ k, k < m → runDepth op cl d (l.take (k+1)) ≠ 0 := by
  intro l
  induction l with
  | nil => intro i d r h; simp [depthScanAux] at h
  | cons c cs ih =>
    intro i d r h
    simp only [depthScanAux] at h
    by_cases hd : (step op cl d c == 0) = true
    · rw [if_pos hd] at h
      injection h with h
      subst h
      have hstep : step op cl d c = 0 := by simpa using hd
      refine ⟨0, by omega, by simp, ?_, ?_⟩
      · simpa [runDepth] using hstep
      · intro k hk; exact absurd hk (Nat.not_lt_zero k)
    · rw [if_neg hd] at h
      have hstep : ¬ step op cl d c = 0 := by simpa using hd
      obtain ⟨m, hr, hlen, hrun, hmin⟩ := ih (i+1) (step op cl d c) r h
      refine ⟨m + 1, by omega, by simp; omega, ?_, ?_⟩
      · rw [List.take_succ_cons, runDepth_cons]
        exact hrun
      · intro k hk
        cases k with
        | zero => simpa [runDepth] using hstep
        | succ k2 =>
          rw [List.take_succ_cons, runDepth_cons]
          exact hmin k2 (by omega)

/-- `registry.get` misses exactly when `registry.has` is false. -/
theorem has_false_lookup (s : ExecState) (n : String)
    (hh : has s n = false) : lookupAction s n = none := by
  unfold lookupAction
  have hfind : s.find? (fun p => p.1 == n) = none := by
    rw [List.find?_eq_none]
    intro x hx hpx
    have : has s n = true := by
      unfold has
      rw [List.any_eq_true]
      exact ⟨x, hx, hpx⟩
    rw [this] at hh
    exact Bool.noConfusion hh
  rw [hfind]
  rfl

/-- A successful `register` call appends exactly one entry, built by
`mkConfig`, to the registry. -/
theorem register_ok (s : ExecState) (name : String)
    (f : JSValue → Except String JSValue) (m : Metadata) (s2 : ExecState)
    (h : register s name (HandlerArg.func f) m = (s2, none)) :
    s2 = s ++ [(name, mkConfig name f m)] := by
  have hred : register s name (HandlerArg.func f) m =
      if has s name then (s, some (ExecError.duplicateAction name))
      else (s ++ [(name, mkConfig name f m)], none) := rfl
  rw [hred] at h
  split at h
  · have hsnd := congrArg Prod.snd h
    simp at hsnd
  · exact (congrArg Prod.fst h).symm

/-! ### Claims about the response parser -/

/-- C1 (confirmed).  For a string input whose cleaned form (after fence
stripping and trimming) fails both whole-string bracket tests but contains
at least one opening bracket, `parseJSON` locates the first occurrence of
each opening-bracket kind, chooses the earlier one, runs the depth-counting
scan from it, and returns the `JSON.parse` of exactly the minimal balanced
substring: the returned index `i` is the least position at which the depth
counter returns to zero, and the parsed substring is precisely
`cleaned.substring(first, i + 1)`. -/
theorem parseJSON_minimal_balanced (jp : List Char → Option JSValue)
    (s : String) (op cl : Char) (first i : Nat) (v : JSValue)
    (h1 : wholeMatch (fenceClean s) '{' '}' = false)
    (h2 : wholeMatch (fenceClean s) '[' ']' = false)
    (h3 : chooseBracket (fenceClean s) = some (op, cl, first))
    (h4 : depthScan op cl (fenceClean s) first = some i)
    (h5 : jp (sliceTo (fenceClean s) first i) = some v) :
    parseJSON jp (JSValue.vstr s) = v ∧
    first ≤ i ∧ i < (fenceClean s).length ∧
    runDepth op cl 0 (sliceTo (fenceClean s) first i) = 0 ∧
    ∀ j, first ≤ j → j < i →
      runDepth op cl 0 (sliceTo (fenceClean s) first j) ≠ 0 := by
  obtain ⟨m, hrm, hmlen, hrun, hmin⟩ :=
    depthScanAux_spec op cl ((fenceClean s).drop first) first 0 i h4
  have hlen : ((fenceClean s).drop first).length =
      (fenceClean s).length - first := List.length_drop first (fenceClean s)
  have hfirst : first < (fenceClean s).length := by omega
  constructor
  · show parseJSON jp (JSValue.vstr s) = v
    simp [parseJSON, parseJSONBody, scanBranch, jpRun, h1, h2, h3, h4, h5]
  refine ⟨by omega, by omega, ?_, ?_⟩
  · have : sliceTo (fenceClean s) first i =
        ((fenceClean s).drop first).take (m + 1) := by
      unfold sliceTo
      congr 1
      omega
    rw [this]
    exact hrun
  · intro j hj1 hj2
    have : sliceTo (fenceClean s) first j =
        ((fenceClean s).drop first).take ((j - first) + 1) := by
      unfold sliceTo
      congr 1
      omega
    rw [this]
    exact hmin (j - first) (by omega)

/-- Witness for C1: on the text `x [1, 2] y` surrounded by prose, the scan
starts at the first bracket (index 2), balances at index 7, and the parse of
that substring is the array `[1, 2]`. -/
theorem parseJSON_minimal_balanced_witness :
    parseJSON jsonParseModel (JSValue.vstr (String.mk c1chars)) =
      JSValue.varr [JSValue.vnum 1, JSValue.vnum 2] :=
  (parseJSON_minimal_balanced jsonParseModel (String.mk c1chars) '[' ']' 2 7
    (JSValue.varr [JSValue.vnum 1, JSValue.vnum 2])
    rfl rfl rfl rfl rfl).1

/-- Counterexample to C2 as stated: a number is a non-string structured
value per the glossary, but `parseJSON` does not return it unchanged — the
`typeof response === "object"` test fails for numbers, the subsequent
`response.replace` call throws, and the catch block yields the failure
sentinel. -/
theorem parseJSON_passthrough_counterexample :
    parseJSON jsonParseModel (JSValue.vnum 5) = parseFailedSentinel ∧
    parseJSON jsonParseModel (JSValue.vnum 5) ≠ JSValue.vnum 5 := by
  constructor
  · rfl
  · intro h
    rw [show parseJSON jsonParseModel (JSValue.vnum 5) = parseFailedSentinel
        from rfl] at h
    exact JSValue.noConfusion h

/-- C2 (amended).  Pass-through applies exactly to the inputs whose
JavaScript `typeof` is `object` — mappings, ordered sequences and `null` —
which `parseJSON` returns unchanged; numeric and boolean inputs are not
passed through and instead yield the failure sentinel. -/
theorem parseJSON_passthrough (jp : List Char → Option JSValue)
    (v : JSValue) :
    (jsTypeof v = "object" → parseJSON jp v = v) ∧
    ((jsTypeof v = "number" ∨ jsTypeof v = "boolean") →
      parseJSON jp v = parseFailedSentinel) := by
  cases v with
  | vstr s =>
    constructor
    · intro h; simp [jsTypeof] at h
    · intro h; rcases h with h | h <;> simp [jsTypeof] at h
  | vnum n =>
    constructor
    · intro h; simp [jsTypeof] at h
    · intro h; rfl
  | vbool b =>
    constructor
    · intro h; simp [jsTypeof] at h
    · intro h; rfl
  | vnull =>
    constructor
    · intro h; rfl
    · intro h; rcases h with h | h <;> simp [jsTypeof] at h
  | vobj m =>
    constructor
    · intro h; rfl
    · intro h; rcases h with h | h <;> simp [jsTypeof] at h
  | varr l =>
    constructor
    · intro h; rfl
    · intro h; rcases h with h | h <;> simp [jsTypeof] at h

/-- Witness for the amended C2: `null` (whose `typeof` is `object`) passes
through unchanged, while `true` yields the failure sentinel. -/
theorem parseJSON_passthrough_witness :
    parseJSON jsonParseModel JSValue.vnull = JSValue.vnull ∧
    parseJSON jsonParseModel (JSValue.vbool true) = parseFailedSentinel :=
  ⟨(parseJSON_passthrough jsonParseModel JSValue.vnull).1 rfl,
   (parseJSON_passthrough jsonParseModel (JSValue.vbool true)).2 (Or.inr rfl)⟩

/-- C3 (confirmed).  For every string input and every behaviour of the
`JSON.parse` builtin, `parseJSON` completes normally: either the `try` body
produces a value, which is returned, or the body throws at some stage and
the result is the failure sentinel — a mapping with the single diagnostic
field `error`.  In particular no exception escapes to the caller. -/
theorem parseJSON_never_throws (jp : List Char → Option JSValue)
    (s : String) :
    (∃ v, parseJSONBody jp (JSValue.vstr s) = Except.ok v ∧
      parseJSON jp (JSValue.vstr s) = v) ∨
    ((∃ e, parseJSONBody jp (JSValue.vstr s) = Except.error e) ∧
      parseJSON jp (JSValue.vstr s) =
        JSValue.vobj [("error", JSValue.vstr "Failed to parse response")]) := by
  cases hb : parseJSONBody jp (JSValue.vstr s) with
  | ok v => exact Or.inl ⟨v, rfl, by simp [parseJSON, hb]⟩
  | error e =>
    exact Or.inr ⟨⟨e, rfl⟩, by simp [parseJSON, hb, parseFailedSentinel]⟩

/-- C7 (confirmed).  When both bracket kinds occur in the cleaned text and
neither whole-string test matched, the kind whose first occurrence has the
smaller index determines the balancing branch: whenever the first `[`
precedes the first `{`, the array branch is chosen, regardless of what the
balanced region contains. -/
theorem parseJSON_bracket_priority (jp : List Char → Option JSValue)
    (s : String) (o a : Nat)
    (h1 : wholeMatch (fenceClean s) '{' '}' = false)
    (h2 : wholeMatch (fenceClean s) '[' ']' = false)
    (h3 : (fenceClean s).findIdx? (fun c => c == '{') = some o)
    (h4 : (fenceClean s).findIdx? (fun c => c == '[') = some a)
    (h5 : a < o) :
    chooseBracket (fenceClean s) = some ( '[', ']', a) ∧
    parseJSONBody jp (JSValue.vstr s) =
      scanBranch jp '[' ']' a (fenceClean s) := by
  have hcb : chooseBracket (fenceClean s) = some ( '[', ']', a) := by
    unfold chooseBracket
    rw [h3, h4]
    simp [h5]
  refine ⟨hcb, ?_⟩
  simp [parseJSONBody, h1, h2, hcb]

/-- Witness for C7: in `a [1] b` followed by an object fragment, the first
`[` (index 2) precedes the first `{` (index 8), so the array branch is
taken even though an object-looking fragment follows. -/
theorem parseJSON_bracket_priority_witness :
    chooseBracket (fenceClean (String.mk c7chars)) = some ( '[', ']', 2) ∧
    parseJSONBody jsonParseModel (JSValue.vstr (String.mk c7chars)) =
      scanBranch jsonParseModel '[' ']' 2 (fenceClean (String.mk c7chars)) :=
  parseJSON_bracket_priority jsonParseModel (String.mk c7chars) 8 2
    rfl rfl rfl rfl (by decide)

/-! ### Claims about the action executor -/

/-- Classification of every rejection `execute` can produce: it is one of
the three contract checks, or an exception raised by a caller-supplied
validator and propagated unchanged. -/
theorem execute_error_classes (s : ExecState) (d : Option Decision)
    (e : ExecError) (he : (execute s d).1 = Except.error e) :
    isContractError e = true ∨ ∃ em, e = ExecError.validatorThrown em := by
  cases d with
  | none =>
    simp [execute] at he
    exact Or.inl (he ▸ rfl)
  | some dec =>
    obtain ⟨act, ps⟩ := dec
    cases act with
    | none =>
      simp [execute] at he
      exact Or.inl (he ▸ rfl)
    | some name =>
      by_cases hn : (name == "") = true
      · simp [execute, hn] at he
        exact Or.inl (he ▸ rfl)
      · rw [Bool.not_eq_true] at hn
        cases hl : lookupAction s name with
        | none =>
          simp [execute, hn, hl] at he
          exact Or.inl (he ▸ rfl)
        | some cfg =>
          cases hv : cfg.validate (paramsOrDefault ps) with
          | error msg =>
            simp [execute, hn, hl, hv] at he
            exact Or.inr ⟨msg, he.symm⟩
          | ok b =>
            cases b with
            | false =>
              simp [execute, hn, hl, hv] at he
              exact Or.inl (he ▸ rfl)
            | true =>
              cases hh : cfg.handler (paramsOrDefault ps) with
              | ok r => simp [execute, hn, hl, hv, hh] at he
              | error msg => simp [execute, hn, hl, hv, hh] at he

/-- Counterexample to C4 as stated: a hard failure can escape `execute`
that is none of the three contract checks.  In a registry whose action
`probe` has a custom validator that throws, `execute` rejects with the
validator's own exception, which is not an invalid-decision, unknown-action
or invalid-parameters condition. -/
theorem execute_propagation_counterexample :
    (execute c4cexState (some { action := some "probe" })).1 =
      Except.error (ExecError.validatorThrown "validator exploded") ∧
    isContractError (ExecError.validatorThrown "validator exploded") = false :=
  ⟨rfl, rfl⟩

/-- C4 (amended).  When the handler of a registered action fails during
`execute`, the call completes normally with the envelope
`success: false, action: name, error: message` — the handler's failure does
not propagate.  The hard failures that can propagate from `execute` are the
three contract checks (invalid decision, unknown action, validator
rejection) plus an exception thrown by the action's custom validator, which
propagates as-is. -/
theorem execute_handler_failure_isolation (s : ExecState) (name : String)
    (ps : Option JSValue) (cfg : ActionConfig) (msg : String)
    (hname : (name == "") = false)
    (hfind : lookupAction s name = some cfg)
    (hval : cfg.validate (paramsOrDefault ps) = Except.ok true)
    (hh : cfg.handler (paramsOrDefault ps) = Except.error msg) :
    (execute s (some { action := some name, parameters := ps })).1 =
      Except.ok { success := false, action := name
                , result := none, error := some msg } ∧
    ∀ (s2 : ExecState) (d : Option Decision) (e : ExecError),
      (execute s2 d).1 = Except.error e →
      isContractError e = true ∨ ∃ em, e = ExecError.validatorThrown em := by
  refine ⟨?_, fun s2 d e he => execute_error_classes s2 d e he⟩
  simp [execute, hname, hfind, hval, hh]

/-- Witness for the amended C4: the failing `deploy` handler's message is
returned in a `success: false` envelope. -/
theorem execute_handler_failure_isolation_witness :
    (execute c4state (some { action := some "deploy" })).1 =
      Except.ok { success := false, action := "deploy"
                , result := none, error := some "handler blew up" } :=
  (execute_handler_failure_isolation c4state "deploy" none
    (mkConfig "deploy" failHandler {}) "handler blew up" rfl rfl rfl rfl).1

/-- C5 (confirmed).  Registering a name that is already present fails and
leaves the registry unmodified — `has` still answers true and the stored
configuration (handler and metadata) is unchanged; likewise registering a
non-callable handler fails without mutating state. -/
theorem register_duplicate_no_mutation (s : ExecState) (name : String)
    (h : HandlerArg) (m : Metadata) :
    (has s name = true →
      register s name h m = (s, some (regFailure h name)) ∧
      has (register s name h m).1 name = true ∧
      lookupAction (register s name h m).1 name = lookupAction s name) ∧
    (∀ w, h = HandlerArg.value w →
      register s name h m = (s, some (ExecError.invalidHandler name))) := by
  constructor
  · intro hdup
    have hreg : register s name h m = (s, some (regFailure h name)) := by
      cases h with
      | value w => rfl
      | func f => simp [register, regFailure, hdup]
    exact ⟨hreg, by rw [hreg]; exact hdup, by rw [hreg]⟩
  · intro w hw
    subst hw
    rfl

/-- Witness for C5: re-registering `a` in a registry that already holds `a`
throws the duplicate-action error and returns the registry unchanged. -/
theorem register_duplicate_no_mutation_witness :
    register c5state "a" (HandlerArg.func okHandler) {} =
      (c5state, some (ExecError.duplicateAction "a")) :=
  ((register_duplicate_no_mutation c5state "a"
    (HandlerArg.func okHandler) {}).1 rfl).1

/-- C6 (confirmed).  Executing a decision whose action names an unregistered
action rejects with the unknown-action error, and the empty interaction
trace shows that no validator, warning or handler was invoked. -/
theorem execute_unknown_action (s : ExecState) (name : String)
    (ps : Option JSValue)
    (hname : (name == "") = false)
    (hmiss : has s name = false) :
    execute s (some { action := some name, parameters := ps }) =
      (Except.error (ExecError.unknownAction name), []) := by
  simp [execute, hname, has_false_lookup s name hmiss]

/-- Witness for C6: dispatching `ghost` on an empty registry. -/
theorem execute_unknown_action_witness :
    execute [] (some { action := some "ghost" }) =
      (Except.error (ExecError.unknownAction "ghost"), []) :=
  execute_unknown_action [] "ghost" none rfl rfl

/-- C8 (confirmed).  Executing a decision that has an action field but no
parameters field invokes both the validator and the handler with the empty
mapping, and on handler success returns the
`success: true, action: name, result: value` envelope. -/
theorem execute_default_params (s : ExecState) (name : String)
    (cfg : ActionConfig) (r : JSValue)
    (hname : (name == "") = false)
    (hfind : lookupAction s name = some cfg)
    (hval : cfg.validate (JSValue.vobj []) = Except.ok true)
    (hh : cfg.handler (JSValue.vobj []) = Except.ok r) :
    (execute s (some { action := some name })).1 =
      Except.ok { success := true, action := name
                , result := some r, error := none } ∧
    Event.validateCall name (JSValue.vobj []) ∈
      (execute s (some { action := some name })).2 ∧
    Event.handlerCall name (JSValue.vobj []) ∈
      (execute s (some { action := some name })).2 := by
  refine ⟨?_, ?_, ?_⟩ <;>
    cases hc : cfg.requiresConfirmation <;>
      simp [execute, paramsOrDefault, hname, hfind, hval, hh, hc]

/-- Witness for C8: the `echo` action dispatched without parameters. -/
theorem execute_default_params_witness :
    (execute c8state (some { action := some "echo" })).1 =
      Except.ok { success := true, action := "echo"
                , result := some (JSValue.vstr "done"), error := none } ∧
    Event.validateCall "echo" (JSValue.vobj []) ∈
      (execute c8state (some { action := some "echo" })).2 ∧
    Event.handlerCall "echo" (JSValue.vobj []) ∈
      (execute c8state (some { action := some "echo" })).2 :=
  execute_default_params c8state "echo" (mkConfig "echo" doneHandler {})
    (JSValue.vstr "done") rfl rfl rfl rfl

/-- C10 (confirmed).  When a registered action's custom validate function
throws, the exception propagates out of `execute` as-is: the call rejects
with the validator's own error (after the single validator interaction), it
is not an invalid-parameters contract condition, and it is not caught and
wrapped into a `success: false` envelope. -/
theorem execute_validator_exception (s : ExecState) (name : String)
    (ps : Option JSValue) (cfg : ActionConfig) (msg : String)
    (hname : (name == "") = false)
    (hfind : lookupAction s name = some cfg)
    (hval : cfg.validate (paramsOrDefault ps) = Except.error msg) :
    execute s (some { action := some name, parameters := ps }) =
      (Except.error (ExecError.validatorThrown msg),
        [Event.validateCall name (paramsOrDefault ps)]) ∧
    isContractError (ExecError.validatorThrown msg) = false ∧
    (execute s (some { action := some name, parameters := ps })).1 ≠
      Except.error (ExecError.invalidParameters name) := by
  have h1 : execute s (some { action := some name, parameters := ps }) =
      (Except.error (ExecError.validatorThrown msg),
        [Event.validateCall name (paramsOrDefault ps)]) := by
    simp [execute, hname, hfind, hval]
  refine ⟨h1, rfl, ?_⟩
  rw [h1]
  intro hcontra
  simp at hcontra

/-- Witness for C10: the throwing validator of `guard` rejects `execute`
with its own exception. -/
theorem execute_validator_exception_witness :
    execute c10state (some { action := some "guard" }) =
      (Except.error (ExecError.validatorThrown "validator exploded"),
        [Event.validateCall "guard" (JSValue.vobj [])]) :=
  (execute_validator_exception c10state "guard" none
    (mkConfig "guard" okHandler { validate := some throwingValidate })
    "validator exploded" rfl rfl rfl).1

/-- C9 (confirmed).  After any sequence of successful registrations,
`list` returns the name/description pairs in insertion order, and
`getAvailableActions` returns records keyed by `action` with description,
parameters and examples populated from the supplied metadata or the
defaults (generated description stub, empty parameters mapping, empty
examples sequence).  Both are fresh value sequences derived from the
registry. -/
theorem list_order_and_shape :
    ∀ (rs : List RegReq) (s0 s : ExecState), applyRegs s0 rs = some s →
    list s = list s0 ++ rs.map (fun r =>
      { name := r.name
      , description :=
          strMetaOrDefault r.meta.description ("Execute " ++ r.name) }) ∧
    getAvailableActions s = getAvailableActions s0 ++ rs.map (fun r =>
      { action := r.name
      , description :=
          strMetaOrDefault r.meta.description ("Execute " ++ r.name)
      , parameters := paramsMetaOrDefault r.meta.parameters
      , examples := r.meta.examples.getD [] }) := by
  intro rs
  induction rs with
  | nil =>
    intro s0 s h
    simp [applyRegs] at h
    subst h
    simp
  | cons r rs ih =>
    intro s0 s h
    simp only [applyRegs] at h
    cases hreg : register s0 r.name (HandlerArg.func r.handler) r.meta with
    | mk s1 err =>
      rw [hreg] at h
      cases err with
      | some e => simp at h
      | none =>
        have hs1 : s1 = s0 ++ [(r.name, mkConfig r.name r.handler r.meta)] :=
          register_ok s0 r.name r.handler r.meta s1 hreg
        obtain ⟨hl, hg⟩ := ih s1 s h
        subst hs1
        constructor
        · rw [hl]
          simp [list, mkConfig, List.map_append]
        · rw [hg]
          simp [getAvailableActions, mkConfig, List.map_append]

/-- Witness for C9: registering `b` (no metadata) then `a` (custom
description) from an empty registry yields the two listing shapes in
registration order with the documented defaults. -/
theorem list_order_and_shape_witness :
    list c9state =
      [ { name := "b", description := "Execute b" }
      , { name := "a", description := "Custom" } ] ∧
    getAvailableActions c9state =
      [ { action := "b", description := "Execute b"
        , parameters := JSValue.vobj [], examples := [] }
      , { action := "a", description := "Custom"
        , parameters := JSValue.vobj [], examples := [] } ] :=
  list_order_and_shape c9reqs [] c9state rfl
